import Mathlib

/-!
Verification of the cross-thread execution and callback-bridging subsystem of
duktape-node (src/duktapejs.cpp), as a shallow embedding in Lean 4.

The embedding models:
- V8 JavaScript values (`JSValue`) as far as the binding inspects them
  (`IsString`, `IsFunction`, `IsObject`, `GetPropertyNames`/`Get`,
  `String::Utf8Value` after `ToString`);
- the `run` entry point (argument checks, API-mapping loop, creation of the
  work request and of the libuv channel resources, queuing of the work), with
  an explicit event trace recording registrations, channel-resource
  initialisation and work queuing in source order;
- the `runSync` entry point;
- the worker/completion pipeline `onWork` / `onWorkDone`, with an explicit
  event trace for resource disposal, notifier invocation, fatal-exception
  surfacing and job release, again in source order;
- the cross-thread callback round trip
  (`duktapeToNodeBridge` / `callV8FunctionOnMainThread`) as a two-thread
  transition system over a mutex, a condition variable and the envelope
  (`APICallbackSignaling`), with an interleaving step relation.

The script engine (`duktape::DuktapeVM::run`) is an external collaborator and
is passed in as an abstract function from (functionName, parameters, script)
to an (errorCode, value) pair.
-/

namespace DuktapeNode

/-- Model of a V8 JavaScript value, as far as duktapejs.cpp inspects values:
strings, numbers, booleans, undefined, null, functions (identified by an
opaque id resolved through a host-function environment), and plain objects
carried as ordered (key, value) property lists. -/
inductive JSValue : Type where
  | vStr : String → JSValue
  | vNum : Int → JSValue
  | vBool : Bool → JSValue
  | vUndefined : JSValue
  | vNull : JSValue
  | vFn : Nat → JSValue
  | vObj : List (JSValue × JSValue) → JSValue

/-- v8 `Value::IsString`. -/
def isString : JSValue → Bool
  | JSValue.vStr _ => true
  | _ => false

/-- v8 `Value::IsFunction`. -/
def isFunction : JSValue → Bool
  | JSValue.vFn _ => true
  | _ => false

/-- v8 `Value::IsObject`, restricted to the plain objects the binding iterates;
a function value used as the api argument has no enumerable own properties in
this model, which is observationally the same as skipping the api block. -/
def isObject : JSValue → Bool
  | JSValue.vObj _ => true
  | _ => false

/-- `String::Utf8Value` applied after `Value::ToString`: the JavaScript
string conversion of a value, simplified to the cases the model carries. -/
def jsToString : JSValue → String
  | JSValue.vStr s => s
  | JSValue.vNum n => toString n
  | JSValue.vBool b => cond b "true" "false"
  | JSValue.vUndefined => "undefined"
  | JSValue.vNull => "null"
  | JSValue.vFn _ => "function"
  | JSValue.vObj _ => "[object Object]"

/-- The property list reached through `GetPropertyNames` plus `Object::Get`,
fused into the ordered (key, value) pairs the api loop visits. -/
def propsOf : JSValue → List (JSValue × JSValue)
  | JSValue.vObj l => l
  | _ => []

/-- The identifier of a function value (meaningful only when `isFunction`). -/
def fnIdOf : JSValue → Nat
  | JSValue.vFn i => i
  | _ => 0

/-- `args[i]` in V8: arguments past the end read as `undefined`. -/
def argAt (args : List JSValue) (i : Nat) : JSValue :=
  args.getD i JSValue.vUndefined

/-- The single namespace-scope channel of duktapejs.cpp: the file declares one
`uv_async_t async`, one `uv_cond_t cv` and one `uv_mutex_t mutex` at
namespace scope (lines 80-82), so there is exactly one channel identity in
the whole process; every bridge closure captures it by address. -/
def globalChanId : Nat := 0

/-- One callback registered into a job's engine: the key string, the captured
persistent host function, and the identity of the channel resources the
bridge closure captured (`&mutex`, `&cv`, `&async`). -/
structure RegisteredCb where
  name : String
  fnId : Nat
  chanId : Nat
deriving DecidableEq, Repr

/-- The `WorkRequest` struct: immutable inputs, the persistent completion
callback, the callbacks registered into the embedded vm, and the write-once
output slot (`hasError`, `returnValue`). -/
structure WorkRequest where
  functionName : String
  parameters : String
  script : String
  callback : Nat
  registered : List RegisteredCb
  hasError : Bool
  returnValue : String
deriving DecidableEq, Repr

/-- A value passed to `ThrowException`: either `Exception::TypeError` or
`Exception::Error`, with its message. -/
inductive ThrownError : Type where
  | typeError : String → ThrownError
  | error : String → ThrownError
deriving DecidableEq, Repr

/-- Observable side effects of `run` in source order. -/
inductive RunEvent : Type where
  | registerCallback : String → RunEvent
  | mutexInit : Nat → RunEvent
  | cvInit : Nat → RunEvent
  | asyncInit : Nat → RunEvent
  | queueWork : RunEvent
deriving DecidableEq, Repr

/-- Whether an event is a callback registration (`vm.registerCallback`). -/
def isRegisterEv : RunEvent → Bool
  | RunEvent.registerCallback _ => true
  | _ => false

/-- Whether an event creates a worker-thread or channel resource
(`uv_mutex_init`, `uv_cond_init`, `uv_async_init`, `uv_queue_work`). -/
def isResourceEv : RunEvent → Bool
  | RunEvent.registerCallback _ => false
  | _ => true

/-- A single api entry passes the check `key->IsString() && value->IsFunction()`
(the source tests the negation and throws). -/
def entryOkB (kv : JSValue × JSValue) : Bool :=
  isString kv.1 && isFunction kv.2

/-- Every entry of a property list is valid. -/
def entriesOk (props : List (JSValue × JSValue)) : Bool :=
  props.all entryOkB

/-- The api loop of `run` (lines 162-202): for each (key, value) property, if
the entry is invalid the whole call throws at once (result `none`), keeping
the registrations already performed in the trace; otherwise the callback
bridge for this entry (which captures the global channel) is registered into
the work request's vm and the loop continues. -/
def apiLoop : List (JSValue × JSValue) → WorkRequest → Option WorkRequest × List RunEvent
  | [], wr => (some wr, [])
  | (k, v) :: rest, wr =>
    if entryOkB (k, v) then
      let wr2 : WorkRequest :=
        { wr with registered := wr.registered ++ [⟨jsToString k, fnIdOf v, globalChanId⟩] }
      let r := apiLoop rest wr2
      (r.1, RunEvent.registerCallback (jsToString k) :: r.2)
    else
      (none, [])

/-- The result of one call to `run`: the thrown exception if any, the work
request handed to `uv_queue_work` if any, the event trace, and the V8 return
value of the native function. -/
structure RunResult where
  thrown : Option ThrownError
  scheduled : Option WorkRequest
  events : List RunEvent
  ret : JSValue

/-- The type-check of `run`'s required arguments (line 145):
`!args[0]->IsString() || !args[1]->IsString() || !args[2]->IsString() ||
!args[4]->IsFunction()`. -/
def argTypesBadRun (args : List JSValue) : Bool :=
  !isString (argAt args 0) || !isString (argAt args 1) ||
  !isString (argAt args 2) || !isFunction (argAt args 4)

/-- The freshly allocated `WorkRequest` of `run` (lines 156-159), before the
api loop: inputs copied out of the arguments, completion callback made
persistent, no registrations, output slot at its defaults. -/
def initialWorkRequest (args : List JSValue) : WorkRequest :=
  ⟨jsToString (argAt args 0), jsToString (argAt args 1), jsToString (argAt args 2),
   fnIdOf (argAt args 4), [], false, ""⟩

/-- The tail of `run`'s success path (lines 205-213): allocate the uv_work
request, initialise the (global) mutex, condition variable and async handle,
queue the work, and return `Undefined`. -/
def finishRun (wr : WorkRequest) (evs : List RunEvent) : RunResult :=
  ⟨none, some wr,
   evs ++ [RunEvent.mutexInit globalChanId, RunEvent.cvInit globalChanId,
           RunEvent.asyncInit globalChanId, RunEvent.queueWork],
   JSValue.vUndefined⟩

/-- The `run` entry point (lines 136-214): arity check, type check, work
request creation, api loop (only when `args[3]->IsObject()`), channel
initialisation and work queuing; every return path yields `Undefined`. -/
def run (args : List JSValue) : RunResult :=
  if args.length < 5 then
    ⟨some (ThrownError.typeError "Wrong number of arguments"), none, [], JSValue.vUndefined⟩
  else if argTypesBadRun args then
    ⟨some (ThrownError.typeError "Wrong arguments"), none, [], JSValue.vUndefined⟩
  else if isObject (argAt args 3) then
    match apiLoop (propsOf (argAt args 3)) (initialWorkRequest args) with
    | (none, evs) =>
      ⟨some (ThrownError.error "Error in API-definition"), none, evs, JSValue.vUndefined⟩
    | (some wr, evs) => finishRun wr evs
  else
    finishRun (initialWorkRequest args) []

/-- The result/error pair returned by the external script engine
`duktape::DuktapeVM::run`. -/
structure EngineResult where
  errorCode : Int
  value : String
deriving DecidableEq, Repr

/-- The abstract script engine: from (functionName, parameters, script) to an
(errorCode, value) pair. -/
def Engine : Type := String → String → String → EngineResult

/-- `onWork` (lines 84-92), run on the worker thread: execute the engine and
write the job's output slot, `hasError` being exactly `errorCode != 0`. -/
def onWork (engine : Engine) (w : WorkRequest) : WorkRequest :=
  let ret := engine w.functionName w.parameters w.script
  { w with hasError := ret.errorCode != 0, returnValue := ret.value }

/-- Observable side effects of `onWorkDone` in source order. -/
inductive DoneEvent : Type where
  | closeAsync : DoneEvent
  | destroyMutex : DoneEvent
  | destroyCv : DoneEvent
  | invokeNotifier : Bool → String → DoneEvent
  | fatal : String → DoneEvent
  | disposeCallback : DoneEvent
  | deleteWorkRequest : DoneEvent
  | deleteWork : DoneEvent
deriving DecidableEq, Repr

/-- Whether an event invokes the completion notifier. -/
def isInvokeEv : DoneEvent → Bool
  | DoneEvent.invokeNotifier _ _ => true
  | _ => false

/-- Whether an event surfaces a fatal exception (`node::FatalException`). -/
def isFatalEv : DoneEvent → Bool
  | DoneEvent.fatal _ => true
  | _ => false

/-- Whether an event releases the job or a synchronization resource:
`uv_close` on the async handle, `uv_mutex_destroy`, `uv_cond_destroy`,
`callback.Dispose`, `delete workRequest`, `delete work`. -/
def isReleaseEv : DoneEvent → Bool
  | DoneEvent.invokeNotifier _ _ => false
  | DoneEvent.fatal _ => false
  | _ => true

/-- The completion notifier as host code: it may raise, modelled by
`Except`, the raised message being the carried string. -/
def Notifier : Type := Bool → String → Except String Unit

/-- `onWorkDone` (lines 94-118), run on the owning thread, as its event trace
in source order: first the disposal of the thread-signaling resources
(`uv_close(&async)`, `uv_mutex_destroy`, `uv_cond_destroy`), then the single
notifier invocation with `(hasError, returnValue)` inside a `TryCatch` whose
caught exception is surfaced through `node::FatalException`, and finally the
`ScopedUvWorkRequest` destructor releasing the callback handle, the work
request and the uv_work request at scope exit. -/
def onWorkDone (notifier : Notifier) (w : WorkRequest) : List DoneEvent :=
  [DoneEvent.closeAsync, DoneEvent.destroyMutex, DoneEvent.destroyCv]
  ++ [DoneEvent.invokeNotifier w.hasError w.returnValue]
  ++ (match notifier w.hasError w.returnValue with
      | Except.error e => [DoneEvent.fatal e]
      | Except.ok _ => [])
  ++ [DoneEvent.disposeCallback, DoneEvent.deleteWorkRequest, DoneEvent.deleteWork]

/-- The result of one call to `runSync`: either a thrown exception or the
returned string value. -/
inductive SyncResult : Type where
  | thrown : ThrownError → SyncResult
  | returned : JSValue → SyncResult

/-- The type-check of `runSync`'s required arguments (line 225). -/
def argTypesBadSync (args : List JSValue) : Bool :=
  !isString (argAt args 0) || !isString (argAt args 1) || !isString (argAt args 2)

/-- The api loop of `runSync` (lines 233-266): like the async one, but the
bridge closures call the host function inline with no channel, so only the
(name, function) pairs are accumulated. -/
def syncApiLoop : List (JSValue × JSValue) → Option (List (String × Nat)) × List RunEvent
  | [] => (some [], [])
  | (k, v) :: rest =>
    if entryOkB (k, v) then
      let r := syncApiLoop rest
      (r.1.map (fun l => (jsToString k, fnIdOf v) :: l),
       RunEvent.registerCallback (jsToString k) :: r.2)
    else
      (none, [])

/-- The `runSync` entry point (lines 216-281): arity check, type check, api
loop when `args[3]->IsObject()`, then the engine run; a non-zero engine error
code throws an `Exception::Error` carrying the engine's error text, otherwise
the engine's value string is returned unchanged. -/
def runSync (engine : Engine) (args : List JSValue) : SyncResult × List RunEvent :=
  if args.length < 3 then
    (SyncResult.thrown (ThrownError.typeError "Wrong number of arguments"), [])
  else if argTypesBadSync args then
    (SyncResult.thrown (ThrownError.typeError "Wrong arguments"), [])
  else
    match (if isObject (argAt args 3) then syncApiLoop (propsOf (argAt args 3))
           else (some [], [])) with
    | (none, evs) => (SyncResult.thrown (ThrownError.error "Error in API-definition"), evs)
    | (some _, evs) =>
      let ret := engine (jsToString (argAt args 0)) (jsToString (argAt args 1))
                        (jsToString (argAt args 2))
      if ret.errorCode != 0 then (SyncResult.thrown (ThrownError.error ret.value), evs)
      else (SyncResult.returned (JSValue.vStr ret.value), evs)

/-- The synchronous-path bridge `duktapeToNodeBridge` of `runSync` (lines
251-261): build `argv` with the parameter as a V8 string, `Call` the host
function with it, then take `String::Utf8Value` of whatever it returned. -/
def syncBridge (f : JSValue → JSValue) (paramString : String) : String :=
  let argv : List JSValue := [JSValue.vStr paramString]
  let retVal := f (argv.getD 0 JSValue.vUndefined)
  jsToString retVal

/-- The two threads of one cross-thread callback round trip. -/
inductive Tid : Type where
  | worker : Tid
  | main : Tid
deriving DecidableEq, Repr

/-- Program counter of the worker thread inside the async-path bridge
`duktapeToNodeBridge` of `run` (lines 181-197): before `uv_mutex_lock`, after
it, after `uv_async_send`, blocked in `uv_cond_wait`, woken with the mutex
reacquired, and returned with the envelope's string. -/
inductive WPc : Type where
  | start : WPc
  | locked : WPc
  | sent : WPc
  | waiting : WPc
  | woken : WPc
  | done : WPc
deriving DecidableEq, Repr

/-- Program counter of the owning thread inside the async wake handler
`callV8FunctionOnMainThread` (lines 120-134): idle, holding the mutex, having
run the host function and written the envelope, having signalled the
condition variable, and having released the mutex. -/
inductive MPc : Type where
  | idle : MPc
  | locked : MPc
  | written : MPc
  | signaled : MPc
  | unlocked : MPc
deriving DecidableEq, Repr

/-- Shared state of one cross-thread callback invocation: the two program
counters, the holder of the single mutex, whether `uv_async_send` is pending,
whether `uv_cond_signal` has fired, the envelope's `returnValue`
(`APICallbackSignaling::returnValue`, initialised to the empty string), and
the string the worker's bridge call returned, once it has. -/
structure ChanState where
  wpc : WPc
  mpc : MPc
  holder : Option Tid
  asyncPending : Bool
  signaled : Bool
  envelope : String
  result : Option String
deriving DecidableEq, Repr

/-- Initial state: worker about to enter the bridge, owning thread idle,
mutex free, nothing pending, envelope empty. -/
def chanInit : ChanState :=
  ⟨WPc.start, MPc.idle, none, false, false, "", none⟩

/-- One interleaving step of the two threads, for a bound host function `f`
and the parameter string `param` of this invocation. Worker steps follow the
bridge (lines 185-196): lock, allocate the envelope and `uv_async_send`,
`uv_cond_wait` (atomically releasing the mutex), wake only after a signal and
with the mutex reacquired, then unlock and return the envelope's string.
Owning-thread steps follow the wake handler (lines 122-133): lock, run the
host function on `String::New(parameter)` and store `String::Utf8Value` of
its result in the envelope, `uv_cond_signal`, unlock. -/
inductive CStep (f : JSValue → JSValue) (param : String) : ChanState → ChanState → Prop where
  | wLock : ∀ s : ChanState, s.wpc = WPc.start → s.holder = none →
      CStep f param s { s with wpc := WPc.locked, holder := some Tid.worker }
  | wSend : ∀ s : ChanState, s.wpc = WPc.locked → s.holder = some Tid.worker →
      CStep f param s { s with wpc := WPc.sent, asyncPending := true }
  | wWait : ∀ s : ChanState, s.wpc = WPc.sent → s.holder = some Tid.worker →
      CStep f param s { s with wpc := WPc.waiting, holder := none }
  | wWake : ∀ s : ChanState, s.wpc = WPc.waiting → s.signaled = true → s.holder = none →
      CStep f param s { s with wpc := WPc.woken, holder := some Tid.worker }
  | wFinish : ∀ s : ChanState, s.wpc = WPc.woken → s.holder = some Tid.worker →
      CStep f param s { s with wpc := WPc.done, holder := none, result := some s.envelope }
  | mLock : ∀ s : ChanState, s.mpc = MPc.idle → s.asyncPending = true → s.holder = none →
      CStep f param s { s with mpc := MPc.locked, holder := some Tid.main }
  | mRun : ∀ s : ChanState, s.mpc = MPc.locked → s.holder = some Tid.main →
      CStep f param s { s with mpc := MPc.written,
                               envelope := jsToString (f (JSValue.vStr param)) }
  | mSignal : ∀ s : ChanState, s.mpc = MPc.written → s.holder = some Tid.main →
      CStep f param s { s with mpc := MPc.signaled, signaled := true }
  | mUnlock : ∀ s : ChanState, s.mpc = MPc.signaled → s.holder = some Tid.main →
      CStep f param s { s with mpc := MPc.unlocked, holder := none }

/-- A state reachable by interleaving the two threads from the initial one. -/
def ChanReachable (f : JSValue → JSValue) (param : String) (s : ChanState) : Prop :=
  Relation.ReflTransGen (CStep f param) chanInit s

/-- Inductive invariant of the round trip: once the owning thread has run the
host function, the envelope holds its stringified result; the signal fires
only at or after that point; the worker is past its wait only after the
signal; and a finished worker carries exactly the stored string. -/
def ChanInv (f : JSValue → JSValue) (param : String) (s : ChanState) : Prop :=
  (s.mpc = MPc.written ∨ s.mpc = MPc.signaled ∨ s.mpc = MPc.unlocked →
    s.envelope = jsToString (f (JSValue.vStr param)))
  ∧ (s.signaled = true → s.mpc = MPc.signaled ∨ s.mpc = MPc.unlocked)
  ∧ (s.wpc = WPc.done → s.result = some (jsToString (f (JSValue.vStr param))))
  ∧ (s.wpc = WPc.woken ∨ s.wpc = WPc.done → s.signaled = true)

/-- The final state of the canonical complete interleaving of one round trip. -/
def chanFinal (f : JSValue → JSValue) (param : String) : ChanState :=
  ⟨WPc.done, MPc.unlocked, none, true, true,
   jsToString (f (JSValue.vStr param)), some (jsToString (f (JSValue.vStr param)))⟩

/-- A caller-supplied api mapping whose every key is a string and every value
a function, built from (name, function id) pairs. -/
def mkApiObj (api : List (String × Nat)) : JSValue :=
  JSValue.vObj (api.map (fun kn => (JSValue.vStr kn.1, JSValue.vFn kn.2)))

/-- Characterization of the exception thrown by `run`, stated from the
amended argument contract: a TypeError for missing or mis-typed required
arguments, an `Exception::Error` for an api object with an invalid entry, and
no exception otherwise — in particular an api argument that is present but
not an object is ignored rather than rejected. -/
def runThrownSpec (args : List JSValue) : Option ThrownError :=
  if args.length < 5 then some (ThrownError.typeError "Wrong number of arguments")
  else if argTypesBadRun args then some (ThrownError.typeError "Wrong arguments")
  else if isObject (argAt args 3) && !entriesOk (propsOf (argAt args 3)) then
    some (ThrownError.error "Error in API-definition")
  else none

/-- Characterization of `runSync`'s result, stated from the amended argument
contract and the engine-error contract. -/
def runSyncSpec (engine : Engine) (args : List JSValue) : SyncResult :=
  if args.length < 3 then SyncResult.thrown (ThrownError.typeError "Wrong number of arguments")
  else if argTypesBadSync args then SyncResult.thrown (ThrownError.typeError "Wrong arguments")
  else if isObject (argAt args 3) && !entriesOk (propsOf (argAt args 3)) then
    SyncResult.thrown (ThrownError.error "Error in API-definition")
  else
    let ret := engine (jsToString (argAt args 0)) (jsToString (argAt args 1))
                      (jsToString (argAt args 2))
    if ret.errorCode != 0 then SyncResult.thrown (ThrownError.error ret.value)
    else SyncResult.returned (JSValue.vStr ret.value)

/-- The registration events a call to `run` is expected to emit: nothing when
the required arguments are rejected or the api argument is not an object, and
one registration per valid entry up to (excluding) the first invalid one
otherwise. -/
def regEventsExpected (args : List JSValue) : List RunEvent :=
  if args.length < 5 then []
  else if argTypesBadRun args then []
  else if isObject (argAt args 3) then
    ((propsOf (argAt args 3)).takeWhile entryOkB).map
      (fun kv => RunEvent.registerCallback (jsToString kv.1))
  else []

/-- A completion notifier that returns normally. -/
def exNotifierOk : Notifier := fun _ _ => Except.ok ()

/-- A concrete completed job with no error and value "v". -/
def exWorkV : WorkRequest := ⟨"m", "p", "s", 0, [], false, "v"⟩

/-- Formalization of claim C6's ordering: every release of the job or of a
synchronization resource in the completion trace comes strictly after the
notifier invocation. -/
def notifierBeforeRelease (t : List DoneEvent) : Prop :=
  ∀ (i j : Nat) (h : Bool) (v : String) (e : DoneEvent),
    t.get? i = some (DoneEvent.invokeNotifier h v) → t.get? j = some e →
    isReleaseEv e = true → i < j

/-- Formalization of claim C4's registry atomicity: if the call threw, no
callback registration was performed. -/
def noPartialRegistration (r : RunResult) : Prop :=
  r.thrown.isSome = true → r.events.filter isRegisterEv = []

/-- An api value of the shape the spec requires: an object whose every
property has a string key and a function value. -/
def apiShapeOkB (v : JSValue) : Bool :=
  isObject v && entriesOk (propsOf v)

/-- Arguments for `run` whose api mapping has one valid entry "f" followed by
an invalid entry "g" bound to a number. -/
def exArgsPartial : List JSValue :=
  [JSValue.vStr "m", JSValue.vStr "p", JSValue.vStr "s",
   JSValue.vObj [(JSValue.vStr "f", JSValue.vFn 1), (JSValue.vStr "g", JSValue.vNum 2)],
   JSValue.vFn 0]

/-- Arguments for `run` whose api argument is present but is a number, not an
object. -/
def exArgsNonObjApi : List JSValue :=
  [JSValue.vStr "m", JSValue.vStr "p", JSValue.vStr "s", JSValue.vNum 42, JSValue.vFn 0]

/-- Arguments for a first `run` call with one registered callback "f". -/
def exArgsA : List JSValue :=
  [JSValue.vStr "m1", JSValue.vStr "p1", JSValue.vStr "s1",
   JSValue.vObj [(JSValue.vStr "f", JSValue.vFn 1)], JSValue.vFn 10]

/-- Arguments for a second, concurrently submitted `run` call with one
registered callback "g". -/
def exArgsB : List JSValue :=
  [JSValue.vStr "m2", JSValue.vStr "p2", JSValue.vStr "s2",
   JSValue.vObj [(JSValue.vStr "g", JSValue.vFn 2)], JSValue.vFn 20]

/-- The work request scheduled by `run exArgsA`. -/
def exWorkA : WorkRequest := ⟨"m1", "p1", "s1", 10, [⟨"f", 1, 0⟩], false, ""⟩

/-- The work request scheduled by `run exArgsB`. -/
def exWorkB : WorkRequest := ⟨"m2", "p2", "s2", 20, [⟨"g", 2, 0⟩], false, ""⟩

lemma chanInv_init (f : JSValue → JSValue) (param : String) : ChanInv f param chanInit := by
  refine ⟨?_, ?_, ?_, ?_⟩ <;> intro h <;> simp [chanInit] at h

lemma chanInv_step {f : JSValue → JSValue} {param : String} {s t : ChanState}
    (h : CStep f param s t) (hs : ChanInv f param s) : ChanInv f param t := by
  obtain ⟨h1, h2, h3, h4⟩ := hs
  cases h with
  | wLock hw hh =>
    exact ⟨h1, h2, fun hd => by simp at hd, fun hw2 => by
      rcases hw2 with h' | h' <;> simp at h'⟩
  | wSend hw hh =>
    exact ⟨h1, h2, fun hd => by simp at hd, fun hw2 => by
      rcases hw2 with h' | h' <;> simp at h'⟩
  | wWait hw hh =>
    exact ⟨h1, h2, fun hd => by simp at hd, fun hw2 => by
      rcases hw2 with h' | h' <;> simp at h'⟩
  | wWake hw hsig hh =>
    exact ⟨h1, h2, fun hd => by simp at hd, fun _ => hsig⟩
  | wFinish hw hh =>
    have hsig : s.signaled = true := h4 (Or.inl hw)
    have hmp := h2 hsig
    have henv : s.envelope = jsToString (f (JSValue.vStr param)) := by
      rcases hmp with hm | hm
      · exact h1 (Or.inr (Or.inl hm))
      · exact h1 (Or.inr (Or.inr hm))
    exact ⟨h1, h2, fun _ => by simp [henv], fun _ => hsig⟩
  | mLock hm ha hh =>
    refine ⟨fun hm2 => ?_, fun hsig => ?_, h3, h4⟩
    · rcases hm2 with h' | h' | h' <;> simp at h'
    · have h' := h2 hsig
      rw [hm] at h'
      rcases h' with h' | h' <;> simp at h'
  | mRun hm hh =>
    refine ⟨fun _ => rfl, fun hsig => ?_, h3, h4⟩
    · have h' := h2 hsig
      rw [hm] at h'
      rcases h' with h' | h' <;> simp at h'
  | mSignal hm hh =>
    exact ⟨fun _ => h1 (Or.inl hm), fun _ => Or.inl rfl, h3, fun _ => rfl⟩
  | mUnlock hm hh =>
    exact ⟨fun _ => h1 (Or.inr (Or.inl hm)), fun _ => Or.inr rfl, h3, h4⟩

lemma chanInv_reachable {f : JSValue → JSValue} {param : String} {s : ChanState}
    (h : ChanReachable f param s) : ChanInv f param s := by
  induction h with
  | refl => exact chanInv_init f param
  | tail _ hstep ih => exact chanInv_step hstep ih

/-- Any step that changes the envelope or fires the signal is an owning-thread
step taken while holding the mutex. -/
lemma cstep_under_lock {f : JSValue → JSValue} {param : String} {s t : ChanState}
    (h : CStep f param s t) :
    (t.envelope ≠ s.envelope → s.holder = some Tid.main)
    ∧ (t.signaled = true → s.signaled = false → s.holder = some Tid.main) := by
  cases h with
  | wLock hw hh => exact ⟨fun hne => absurd rfl hne, fun ht hf => by simp at ht; rw [ht] at hf; cases hf⟩
  | wSend hw hh => exact ⟨fun hne => absurd rfl hne, fun ht hf => by simp at ht; rw [ht] at hf; cases hf⟩
  | wWait hw hh => exact ⟨fun hne => absurd rfl hne, fun ht hf => by simp at ht; rw [ht] at hf; cases hf⟩
  | wWake hw hsig hh => exact ⟨fun hne => absurd rfl hne, fun ht hf => by simp at ht; rw [ht] at hf; cases hf⟩
  | wFinish hw hh => exact ⟨fun hne => absurd rfl hne, fun ht hf => by simp at ht; rw [ht] at hf; cases hf⟩
  | mLock hm ha hh => exact ⟨fun hne => absurd rfl hne, fun ht hf => by simp at ht; rw [ht] at hf; cases hf⟩
  | mRun hm hh => exact ⟨fun _ => hh, fun _ _ => hh⟩
  | mSignal hm hh => exact ⟨fun _ => hh, fun _ _ => hh⟩
  | mUnlock hm hh => exact ⟨fun _ => hh, fun _ _ => hh⟩

lemma chanReach_final (f : JSValue → JSValue) (param : String) :
    ChanReachable f param (chanFinal f param) := by
  have h1 : CStep f param chanInit
      ⟨WPc.locked, MPc.idle, some Tid.worker, false, false, "", none⟩ :=
    CStep.wLock chanInit rfl rfl
  have h2 : CStep f param ⟨WPc.locked, MPc.idle, some Tid.worker, false, false, "", none⟩
      ⟨WPc.sent, MPc.idle, some Tid.worker, true, false, "", none⟩ :=
    CStep.wSend _ rfl rfl
  have h3 : CStep f param ⟨WPc.sent, MPc.idle, some Tid.worker, true, false, "", none⟩
      ⟨WPc.waiting, MPc.idle, none, true, false, "", none⟩ :=
    CStep.wWait _ rfl rfl
  have h4 : CStep f param ⟨WPc.waiting, MPc.idle, none, true, false, "", none⟩
      ⟨WPc.waiting, MPc.locked, some Tid.main, true, false, "", none⟩ :=
    CStep.mLock _ rfl rfl rfl
  have h5 : CStep f param ⟨WPc.waiting, MPc.locked, some Tid.main, true, false, "", none⟩
      ⟨WPc.waiting, MPc.written, some Tid.main, true, false,
       jsToString (f (JSValue.vStr param)), none⟩ :=
    CStep.mRun _ rfl rfl
  have h6 : CStep f param
      ⟨WPc.waiting, MPc.written, some Tid.main, true, false,
       jsToString (f (JSValue.vStr param)), none⟩
      ⟨WPc.waiting, MPc.signaled, some Tid.main, true, true,
       jsToString (f (JSValue.vStr param)), none⟩ :=
    CStep.mSignal _ rfl rfl
  have h7 : CStep f param
      ⟨WPc.waiting, MPc.signaled, some Tid.main, true, true,
       jsToString (f (JSValue.vStr param)), none⟩
      ⟨WPc.waiting, MPc.unlocked, none, true, true,
       jsToString (f (JSValue.vStr param)), none⟩ :=
    CStep.mUnlock _ rfl rfl
  have h8 : CStep f param
      ⟨WPc.waiting, MPc.unlocked, none, true, true,
       jsToString (f (JSValue.vStr param)), none⟩
      ⟨WPc.woken, MPc.unlocked, some Tid.worker, true, true,
       jsToString (f (JSValue.vStr param)), none⟩ :=
    CStep.wWake _ rfl rfl rfl
  have h9 : CStep f param
      ⟨WPc.woken, MPc.unlocked, some Tid.worker, true, true,
       jsToString (f (JSValue.vStr param)), none⟩
      (chanFinal f param) :=
    CStep.wFinish _ rfl rfl
  exact Relation.ReflTransGen.tail (Relation.ReflTransGen.tail (Relation.ReflTransGen.tail
    (Relation.ReflTransGen.tail (Relation.ReflTransGen.tail (Relation.ReflTransGen.tail
    (Relation.ReflTransGen.tail (Relation.ReflTransGen.tail (Relation.ReflTransGen.tail
    Relation.ReflTransGen.refl h1) h2) h3) h4) h5) h6) h7) h8) h9

lemma apiLoop_events (props : List (JSValue × JSValue)) (wr : WorkRequest) :
    (apiLoop props wr).2 =
      (props.takeWhile entryOkB).map (fun kv => RunEvent.registerCallback (jsToString kv.1)) := by
  induction props generalizing wr with
  | nil => rfl
  | cons kv rest ih =>
    obtain ⟨k, v⟩ := kv
    by_cases hok : entryOkB (k, v)
    · simp [apiLoop, hok, List.takeWhile, ih]
    · simp [apiLoop, hok, List.takeWhile]

lemma apiLoop_fst_isSome (props : List (JSValue × JSValue)) (wr : WorkRequest) :
    (apiLoop props wr).1.isSome = entriesOk props := by
  induction props generalizing wr with
  | nil => rfl
  | cons kv rest ih =>
    obtain ⟨k, v⟩ := kv
    by_cases hok : entryOkB (k, v)
    · simp [apiLoop, hok, entriesOk, List.all_cons, ih]
    · simp [apiLoop, hok, entriesOk, List.all_cons]

lemma apiLoop_chanId (props : List (JSValue × JSValue)) (wr w2 : WorkRequest)
    (h : (apiLoop props wr).1 = some w2) :
    ∀ cb ∈ w2.registered, cb ∈ wr.registered ∨ cb.chanId = globalChanId := by
  induction props generalizing wr with
  | nil =>
    simp only [apiLoop, Option.some.injEq] at h
    subst h
    exact fun cb hcb => Or.inl hcb
  | cons kv rest ih =>
    obtain ⟨k, v⟩ := kv
    by_cases hok : entryOkB (k, v)
    · simp only [apiLoop, hok, if_pos] at h
      intro cb hcb
      rcases ih _ h cb hcb with hmem | hid
      · simp only [List.mem_append, List.mem_singleton] at hmem
        rcases hmem with hmem | hmem
        · exact Or.inl hmem
        · exact Or.inr (by rw [hmem])
      · exact Or.inr hid
    · simp [apiLoop, hok] at h

lemma syncApiLoop_fst_isSome (props : List (JSValue × JSValue)) :
    (syncApiLoop props).1.isSome = entriesOk props := by
  induction props with
  | nil => rfl
  | cons kv rest ih =>
    obtain ⟨k, v⟩ := kv
    by_cases hok : entryOkB (k, v)
    · simp [syncApiLoop, hok, entriesOk, List.all_cons, ih]
    · simp [syncApiLoop, hok, entriesOk, List.all_cons]

lemma syncApiLoop_mkApi (api : List (String × Nat)) :
    syncApiLoop (propsOf (mkApiObj api)) =
      (some api, api.map (fun kn => RunEvent.registerCallback kn.1)) := by
  induction api with
  | nil => rfl
  | cons kn rest ih =>
    obtain ⟨k, n⟩ := kn
    simp only [mkApiObj, propsOf, List.map_cons, syncApiLoop, entryOkB, isString, isFunction,
      Bool.and_self, if_pos] at ih ⊢
    rw [ih]
    simp [jsToString, fnIdOf]

lemma entriesOk_mkApi (api : List (String × Nat)) :
    entriesOk (propsOf (mkApiObj api)) = true := by
  have h := syncApiLoop_fst_isSome (propsOf (mkApiObj api))
  rw [syncApiLoop_mkApi] at h
  simpa using h.symm

lemma filter_reg_of_regmap (l : List (JSValue × JSValue)) :
    ((l.map fun kv => RunEvent.registerCallback (jsToString kv.1)).filter isRegisterEv)
      = l.map fun kv => RunEvent.registerCallback (jsToString kv.1) := by
  apply List.filter_eq_self.mpr
  intro e he
  obtain ⟨kv, _, rfl⟩ := List.mem_map.mp he
  rfl

lemma any_resource_of_regmap (l : List (JSValue × JSValue)) :
    ((l.map fun kv => RunEvent.registerCallback (jsToString kv.1)).any isResourceEv) = false := by
  induction l with
  | nil => rfl
  | cons kv rest ih => simp [isResourceEv, ih]

lemma run_characterization (args : List JSValue) :
    (run args).thrown = runThrownSpec args
    ∧ (run args).scheduled.isSome = (runThrownSpec args).isNone
    ∧ (run args).events.filter isRegisterEv = regEventsExpected args
    ∧ (run args).events.any isResourceEv = (runThrownSpec args).isNone
    ∧ (run args).ret = JSValue.vUndefined := by
  unfold run runThrownSpec regEventsExpected
  by_cases h5 : args.length < 5
  · simp [h5]
  · by_cases hty : argTypesBadRun args = true
    · simp [h5, hty]
    · by_cases hobj : isObject (argAt args 3) = true
      · rcases hap : apiLoop (propsOf (argAt args 3)) (initialWorkRequest args) with ⟨res, evs⟩
        have hev := apiLoop_events (propsOf (argAt args 3)) (initialWorkRequest args)
        have hsome := apiLoop_fst_isSome (propsOf (argAt args 3)) (initialWorkRequest args)
        rw [hap] at hev hsome
        simp only at hev hsome
        cases res with
        | none =>
          have hek : entriesOk (propsOf (argAt args 3)) = false := by simpa using hsome.symm
          subst hev
          simp [h5, hty, hobj, hap, hek, filter_reg_of_regmap, any_resource_of_regmap]
        | some wr =>
          have hek : entriesOk (propsOf (argAt args 3)) = true := by simpa using hsome.symm
          subst hev
          simp [h5, hty, hobj, hap, hek, finishRun, List.filter_append, List.any_append,
            filter_reg_of_regmap, any_resource_of_regmap, isRegisterEv, isResourceEv]
      · simp [h5, hty, hobj, finishRun, isRegisterEv, isResourceEv]

lemma runSync_characterization (engine : Engine) (args : List JSValue) :
    (runSync engine args).1 = runSyncSpec engine args := by
  unfold runSync runSyncSpec
  by_cases h3 : args.length < 3
  · simp [h3]
  · by_cases hty : argTypesBadSync args = true
    · simp [h3, hty]
    · by_cases hobj : isObject (argAt args 3) = true
      · rcases hap : syncApiLoop (propsOf (argAt args 3)) with ⟨res, evs⟩
        have hsome := syncApiLoop_fst_isSome (propsOf (argAt args 3))
        rw [hap] at hsome
        simp only at hsome
        cases res with
        | none =>
          have hek : entriesOk (propsOf (argAt args 3)) = false := by simpa using hsome.symm
          simp [h3, hty, hobj, hap, hek]
        | some regs =>
          have hek : entriesOk (propsOf (argAt args 3)) = true := by simpa using hsome.symm
          simp [h3, hty, hobj, hap, hek]
          split <;> rfl
      · simp [h3, hty, hobj]
        split <;> rfl

lemma onWorkDone_filter_invoke (n : Notifier) (w : WorkRequest) :
    (onWorkDone n w).filter isInvokeEv
      = [DoneEvent.invokeNotifier w.hasError w.returnValue] := by
  unfold onWorkDone
  cases hn : n w.hasError w.returnValue with
  | error e => simp [hn, isInvokeEv]
  | ok u => simp [hn, isInvokeEv]

lemma onWorkDone_filter_fatal (n : Notifier) (w : WorkRequest) :
    (onWorkDone n w).filter isFatalEv
      = (match n w.hasError w.returnValue with
         | Except.error e => [DoneEvent.fatal e]
         | Except.ok _ => []) := by
  unfold onWorkDone
  cases hn : n w.hasError w.returnValue with
  | error e => simp [hn, isFatalEv]
  | ok u => simp [hn, isFatalEv]

lemma run_scheduled_chanId (args : List JSValue) (w : WorkRequest)
    (h : (run args).scheduled = some w) :
    ∀ cb ∈ w.registered, cb.chanId = globalChanId := by
  unfold run at h
  by_cases h5 : args.length < 5
  · simp [h5] at h
  · by_cases hty : argTypesBadRun args = true
    · simp [h5, hty] at h
    · by_cases hobj : isObject (argAt args 3) = true
      · rcases hap : apiLoop (propsOf (argAt args 3)) (initialWorkRequest args) with ⟨res, evs⟩
        rw [if_neg h5, if_neg hty, if_pos hobj, hap] at h
        cases res with
        | none => simp at h
        | some wr =>
          simp only [finishRun] at h
          have hw : wr = w := by simpa using h
          subst hw
          intro cb hcb
          have := apiLoop_chanId (propsOf (argAt args 3)) (initialWorkRequest args) wr
            (by rw [hap]) cb hcb
          rcases this with hmem | hid
          · simp [initialWorkRequest] at hmem
          · exact hid
      · rw [if_neg h5, if_neg hty, if_neg hobj] at h
        simp only [finishRun] at h
        have hw : initialWorkRequest args = w := by simpa using h
        subst hw
        intro cb hcb
        simp [initialWorkRequest] at hcb

/-- C1: the claim states that the mutex, condition variable and wake-signal
async handle of the callback channel are owned per ExecutionJob. The code
refutes this: duktapejs.cpp declares one `uv_async_t`, one `uv_cond_t` and
one `uv_mutex_t` at namespace scope, re-initialised by every call to `run`,
and every bridge closure of every job captures those same globals. This
theorem evaluates the code at that point: for any two scheduled jobs, every
registered bridge of either job uses the one global channel identity, so the
channel resources of any two jobs coincide. -/
theorem c1_channel_is_global_singleton :
    ∀ (a1 a2 : List JSValue) (w1 w2 : WorkRequest),
      (run a1).scheduled = some w1 → (run a2).scheduled = some w2 →
      ∀ cb1 ∈ w1.registered, ∀ cb2 ∈ w2.registered,
        cb1.chanId = globalChanId ∧ cb2.chanId = globalChanId ∧ cb1.chanId = cb2.chanId := by
  intro a1 a2 w1 w2 h1 h2 cb1 hcb1 cb2 hcb2
  have e1 := run_scheduled_chanId a1 w1 h1 cb1 hcb1
  have e2 := run_scheduled_chanId a2 w2 h2 cb2 hcb2
  exact ⟨e1, e2, e1.trans e2.symm⟩

/-- Witness for C1: two concrete concurrently submitted jobs, each with one
registered api callback, whose bridges share the channel identity. -/
theorem c1_channel_is_global_singleton_witness :
    (run exArgsA).scheduled = some exWorkA
    ∧ (run exArgsB).scheduled = some exWorkB
    ∧ (⟨"f", 1, globalChanId⟩ : RegisteredCb).chanId
        = (⟨"g", 2, globalChanId⟩ : RegisteredCb).chanId := by
  refine ⟨rfl, rfl, ?_⟩
  exact (c1_channel_is_global_singleton exArgsA exArgsB exWorkA exWorkB rfl rfl
    ⟨"f", 1, globalChanId⟩ (List.mem_singleton.mpr rfl)
    ⟨"g", 2, globalChanId⟩ (List.mem_singleton.mpr rfl)).2.2

/-- C2: for every job and every engine outcome, the completion trace invokes
the notifier exactly once, with hasError exactly when the engine's errorCode
is non-zero and with the engine's value string. -/
theorem c2_completion_exactly_once :
    ∀ (engine : Engine) (notifier : Notifier) (w : WorkRequest),
      (onWorkDone notifier (onWork engine w)).filter isInvokeEv
        = [DoneEvent.invokeNotifier
            ((engine w.functionName w.parameters w.script).errorCode != 0)
            (engine w.functionName w.parameters w.script).value]
      ∧ (((engine w.functionName w.parameters w.script).errorCode != 0) = true
          ↔ (engine w.functionName w.parameters w.script).errorCode ≠ 0) := by
  intro engine notifier w
  refine ⟨?_, ?_⟩
  · rw [onWorkDone_filter_invoke]
    rfl
  · exact bne_iff_ne

/-- C3: in every interleaving of the cross-thread callback round trip, the
worker's call finishes only with exactly the string the owning thread stored
after fully running the bound function, and every step that writes the
envelope or fires the wake signal is taken while holding the same mutex the
worker holds around its wait. -/
theorem c3_worker_returns_after_owner_write :
    (∀ (f : JSValue → JSValue) (p : String) (s : ChanState),
        ChanReachable f p s → s.wpc = WPc.done →
          s.result = some (jsToString (f (JSValue.vStr p))))
    ∧ (∀ (f : JSValue → JSValue) (p : String) (s t : ChanState),
        CStep f p s t → t.envelope ≠ s.envelope → s.holder = some Tid.main)
    ∧ (∀ (f : JSValue → JSValue) (p : String) (s t : ChanState),
        CStep f p s t → t.signaled = true → s.signaled = false →
          s.holder = some Tid.main) :=
  ⟨fun _ _ _ hr hd => (chanInv_reachable hr).2.2.1 hd,
   fun _ _ _ _ h => (cstep_under_lock h).1,
   fun _ _ _ _ h => (cstep_under_lock h).2⟩

/-- Witness for C3: a concrete complete interleaving, with host function
returning "hi", reaches the worker's done state with result "hi". -/
theorem c3_worker_returns_after_owner_write_witness :
    ChanReachable (fun _ => JSValue.vStr "hi") "x"
      (chanFinal (fun _ => JSValue.vStr "hi") "x")
    ∧ (chanFinal (fun _ => JSValue.vStr "hi") "x").result = some "hi" :=
  ⟨chanReach_final _ _,
   c3_worker_returns_after_owner_write.1 _ _ _ (chanReach_final _ _) rfl⟩

/-- C4 counterexample: with api mapping containing the valid entry "f" before
the invalid entry "g", the call throws, yet the registration event for "f"
has already happened — the claimed "no partial registry" is false on the
code. -/
theorem c4_counterexample_partial_registration :
    ¬ noPartialRegistration (run exArgsPartial) := by
  intro hcl
  have h2 := hcl rfl
  exact absurd h2 (by decide)

/-- C4 amended: for both run and runSync, when the required arguments are
accepted and the api argument is an object containing an invalid entry, the
whole call fails with an `Exception::Error` ("Error in API-definition"):
run schedules nothing (and, for any engine, runSync throws that Error without
the engine's result ever appearing, so no script execution); no worker thread
or channel resource is created on any throwing path; but the callbacks for
the entries preceding the first invalid one have already been registered into
the job's engine (registration events for exactly the valid prefix), so
validation is not atomic. -/
theorem c4_amended_validation_not_atomic :
    ∀ (engine : Engine) (args : List JSValue),
      ((¬ args.length < 5) → argTypesBadRun args = false →
        isObject (argAt args 3) = true → entriesOk (propsOf (argAt args 3)) = false →
        (run args).thrown = some (ThrownError.error "Error in API-definition")
        ∧ (run args).scheduled = none)
      ∧ ((¬ args.length < 3) → argTypesBadSync args = false →
        isObject (argAt args 3) = true → entriesOk (propsOf (argAt args 3)) = false →
        (runSync engine args).1 = SyncResult.thrown (ThrownError.error "Error in API-definition"))
      ∧ (run args).events.any isResourceEv = (run args).thrown.isNone
      ∧ (run args).events.filter isRegisterEv = regEventsExpected args
      ∧ (run args).scheduled.isSome = (run args).thrown.isNone := by
  intro engine args
  obtain ⟨h1, h2, h3, h4, _⟩ := run_characterization args
  refine ⟨?_, ?_, by rw [h4, h1], h3, by rw [h2, h1]⟩
  · intro h5 hty hobj hek
    have hspec : runThrownSpec args = some (ThrownError.error "Error in API-definition") := by
      unfold runThrownSpec
      rw [if_neg h5, if_neg (by simp [hty]), if_pos (by simp [hobj, hek])]
    have hs : (run args).scheduled.isSome = false := by rw [h2, hspec]; rfl
    refine ⟨by rw [h1, hspec], ?_⟩
    cases hsch : (run args).scheduled with
    | none => rfl
    | some w => rw [hsch] at hs; simp at hs
  · intro h3len hty hobj hek
    rw [runSync_characterization]
    unfold runSyncSpec
    rw [if_neg h3len, if_neg (by simp [hty]), if_pos (by simp [hobj, hek])]

/-- Witness for the amended C4 at the concrete api mapping with valid entry
"f" before the invalid entry "g": both run and runSync throw the
Exception::Error, run schedules nothing, and the registration event for "f"
was already emitted before the failure. -/
theorem c4_amended_validation_not_atomic_witness :
    (run exArgsPartial).thrown = some (ThrownError.error "Error in API-definition")
    ∧ (run exArgsPartial).scheduled = none
    ∧ (runSync (fun _ _ _ => ⟨0, "ok"⟩) exArgsPartial).1
        = SyncResult.thrown (ThrownError.error "Error in API-definition")
    ∧ (run exArgsPartial).events.filter isRegisterEv = [RunEvent.registerCallback "f"] := by
  have h := c4_amended_validation_not_atomic (fun _ _ _ => ⟨0, "ok"⟩) exArgsPartial
  refine ⟨(h.1 (by decide) rfl rfl rfl).1, (h.1 (by decide) rfl rfl rfl).2,
    h.2.1 (by decide) rfl rfl rfl, ?_⟩
  rw [h.2.2.2.1]
  rfl

/-- C5: runSync throws an error carrying the engine's error text exactly when
the engine reports a non-zero error code, and otherwise returns the engine's
value string unchanged — both with no api mapping and with a well-formed api
mapping. -/
theorem c5_runSync_error_iff_engine_error :
    ∀ (engine : Engine) (a b c : String) (api : List (String × Nat)),
      (runSync engine [JSValue.vStr a, JSValue.vStr b, JSValue.vStr c]).1
        = (if (engine a b c).errorCode ≠ 0
           then SyncResult.thrown (ThrownError.error (engine a b c).value)
           else SyncResult.returned (JSValue.vStr (engine a b c).value))
      ∧ (runSync engine
            [JSValue.vStr a, JSValue.vStr b, JSValue.vStr c, mkApiObj api]).1
        = (if (engine a b c).errorCode ≠ 0
           then SyncResult.thrown (ThrownError.error (engine a b c).value)
           else SyncResult.returned (JSValue.vStr (engine a b c).value)) := by
  intro engine a b c api
  constructor
  · rw [runSync_characterization]
    show (if (engine a b c).errorCode != 0
          then SyncResult.thrown (ThrownError.error (engine a b c).value)
          else SyncResult.returned (JSValue.vStr (engine a b c).value)) = _
    by_cases hz : (engine a b c).errorCode = 0 <;> simp [hz]
  · rw [runSync_characterization]
    unfold runSyncSpec
    rw [if_neg (by simp), if_neg (by simp [argTypesBadSync, argAt, isString]),
      if_neg (by simp [argAt, entriesOk_mkApi])]
    show (if (engine a b c).errorCode != 0
          then SyncResult.thrown (ThrownError.error (engine a b c).value)
          else SyncResult.returned (JSValue.vStr (engine a b c).value)) = _
    by_cases hz : (engine a b c).errorCode = 0 <;> simp [hz]

/-- C6 counterexample: in the completion trace of a concrete job, the mutex
is destroyed (index 1) before the notifier is invoked (index 3), so the
claimed "notifier first, then release of the per-job synchronization
resources" ordering is false on the code. -/
theorem c6_counterexample_release_before_notify :
    ¬ notifierBeforeRelease (onWorkDone exNotifierOk exWorkV) := by
  intro hcl
  have h := hcl 3 1 false "v" DoneEvent.destroyMutex rfl rfl rfl
  exact absurd h (by decide)

/-- C6 amended: on completion the scheduler first disposes the channel
synchronization resources (wake handle, mutex, condition variable), then
invokes the completion notifier exactly once with (hasError, value), and only
then releases the job (callback handle, work request, uv request); a fatal
surfacing of a notifier exception is the only thing that may come between. -/
theorem c6_amended_release_order :
    ∀ (notifier : Notifier) (w : WorkRequest),
      ∃ mid : List DoneEvent,
        onWorkDone notifier w =
          [DoneEvent.closeAsync, DoneEvent.destroyMutex, DoneEvent.destroyCv,
           DoneEvent.invokeNotifier w.hasError w.returnValue]
          ++ mid
          ++ [DoneEvent.disposeCallback, DoneEvent.deleteWorkRequest, DoneEvent.deleteWork]
        ∧ ∀ e ∈ mid, isFatalEv e = true := by
  intro notifier w
  unfold onWorkDone
  cases hn : notifier w.hasError w.returnValue with
  | error e => exact ⟨[DoneEvent.fatal e], by simp, by simp [isFatalEv]⟩
  | ok u => exact ⟨[], by simp, by simp⟩

/-- Witness for the amended C6 at a concrete notifier and job. -/
theorem c6_amended_release_order_witness :
    ∃ mid : List DoneEvent,
      onWorkDone exNotifierOk exWorkV =
        [DoneEvent.closeAsync, DoneEvent.destroyMutex, DoneEvent.destroyCv,
         DoneEvent.invokeNotifier false "v"]
        ++ mid
        ++ [DoneEvent.disposeCallback, DoneEvent.deleteWorkRequest, DoneEvent.deleteWork]
      ∧ ∀ e ∈ mid, isFatalEv e = true :=
  c6_amended_release_order exNotifierOk exWorkV

/-- C7: the completion trace contains a fatal-exception event exactly when
the notifier itself raised, carrying exactly the raised error, and the single
notifier invocation is present regardless — the error is surfaced through the
fatal path, never swallowed or converted into a recoverable result. -/
theorem c7_notifier_exception_is_fatal :
    ∀ (notifier : Notifier) (w : WorkRequest),
      (onWorkDone notifier w).filter isFatalEv
        = (match notifier w.hasError w.returnValue with
           | Except.error e => [DoneEvent.fatal e]
           | Except.ok _ => [])
      ∧ (onWorkDone notifier w).filter isInvokeEv
        = [DoneEvent.invokeNotifier w.hasError w.returnValue] :=
  fun notifier w => ⟨onWorkDone_filter_fatal notifier w, onWorkDone_filter_invoke notifier w⟩

/-- C8 counterexample: with api present but equal to the number 42 (not an
object of functions), run does not fail with a TypeError — it throws nothing
at all and proceeds — so the claimed TypeError-on-any-other-shape contract is
false on the code. -/
theorem c8_counterexample_nonobject_api_ignored :
    ¬ ((argAt exArgsNonObjApi 3 ≠ JSValue.vUndefined) →
       apiShapeOkB (argAt exArgsNonObjApi 3) = false →
       ∃ m, (run exArgsNonObjApi).thrown = some (ThrownError.typeError m)) := by
  intro hcl
  obtain ⟨m, hm⟩ := hcl (by intro hc; cases hc) rfl
  rw [show (run exArgsNonObjApi).thrown = none from rfl] at hm
  exact Option.noConfusion hm

/-- C8 amended: missing or mis-typed required arguments fail synchronously
with a TypeError and nothing is scheduled; an api object containing an
invalid entry fails synchronously with an Exception::Error (not a TypeError);
an api argument that is present but not an object is silently ignored and the
call proceeds — fully characterised for both run and runSync. -/
theorem c8_amended_argument_contract :
    ∀ (engine : Engine) (args : List JSValue),
      (run args).thrown = runThrownSpec args
      ∧ (run args).scheduled.isSome = (runThrownSpec args).isNone
      ∧ (runSync engine args).1 = runSyncSpec engine args := by
  intro engine args
  obtain ⟨h1, h2, _, _, _⟩ := run_characterization args
  exact ⟨h1, h2, runSync_characterization engine args⟩

/-- C9: in both paths, the value the bound host function returns is converted
to its string representation and that string is what the script receives: the
sync bridge returns the stringification of whatever the host function
returned, and in the async channel the worker's completed call carries that
same stringification — a non-string host return value causes no error. -/
theorem c9_host_return_stringified :
    ∀ (f : JSValue → JSValue) (p : String),
      syncBridge f p = jsToString (f (JSValue.vStr p))
      ∧ (∀ s : ChanState, ChanReachable f p s → s.wpc = WPc.done →
          s.result = some (jsToString (f (JSValue.vStr p)))) :=
  fun _ _ => ⟨rfl, fun _ hr hd => (chanInv_reachable hr).2.2.1 hd⟩

/-- Witness for C9: a host function returning the number 42 (not a string)
yields the string "42" through the sync bridge and through a complete
interleaving of the async channel. -/
theorem c9_host_return_stringified_witness :
    syncBridge (fun _ => JSValue.vNum 42) "x" = "42"
    ∧ ChanReachable (fun _ => JSValue.vNum 42) "x"
        (chanFinal (fun _ => JSValue.vNum 42) "x")
    ∧ (chanFinal (fun _ => JSValue.vNum 42) "x").result = some "42" :=
  ⟨(c9_host_return_stringified (fun _ => JSValue.vNum 42) "x").1,
   chanReach_final _ _,
   (c9_host_return_stringified (fun _ => JSValue.vNum 42) "x").2 _ (chanReach_final _ _) rfl⟩

/-- C10: run returns Undefined to its immediate caller on every path,
successful scheduling and every validation-failure path alike. -/
theorem c10_run_returns_undefined :
    ∀ args : List JSValue, (run args).ret = JSValue.vUndefined :=
  fun args => (run_characterization args).2.2.2.2

end DuktapeNode
